import Mathlib

/-!
Verification of the `markups/restructuredtext.py` adapter.

The Python module is shallowly embedded: the external docutils renderer is a
function parameter, Python dictionaries are association lists held in an
explicit store (so that aliasing of the caller-supplied overrides mapping is
observable), and process-wide renderer state (the directive registry, the
translator class, the `Values.env` attribute) is an explicit record threaded
through construction and conversion.
-/

namespace Markups

/-! ## Python string primitives

`strFind` / `strRfind` model `str.find` / `str.rfind` (lowest / highest index
of an occurrence, `-1` when absent) and `pySlice` models `s[a:b]` including
the normalisation of negative indices. -/

/-- `pat` occurs in `s` at position `i`. -/
def subOccursAt (s pat : List Char) (i : Nat) : Bool :=
  pat.isPrefixOf (s.drop i)

/-- Model of Python `s.find(pat)`: lowest index of an occurrence, else `-1`. -/
def strFind (s pat : List Char) : Int :=
  match (List.range (s.length + 1)).find? (fun i => subOccursAt s pat i) with
  | some i => (i : Int)
  | none => -1

/-- Model of Python `s.rfind(pat)`: highest index of an occurrence, else `-1`. -/
def strRfind (s pat : List Char) : Int :=
  match (List.range (s.length + 1)).reverse.find? (fun i => subOccursAt s pat i) with
  | some i => (i : Int)
  | none => -1

/-- Normalise a Python slice endpoint: negative indices count from the end,
then the result is clamped into `[0, len]`. -/
def pyIndexNorm (len : Nat) (i : Int) : Nat :=
  if i < 0 then
    (if i + (len : Int) < 0 then 0 else min (i + (len : Int)).toNat len)
  else min i.toNat len

/-- Model of Python `s[a:b]`. -/
def pySlice (s : List Char) (a b : Int) : List Char :=
  (s.take (pyIndexNorm s.length b)).drop (pyIndexNorm s.length a)

/-- Model of Python `s.startswith("/")`. -/
def startsWithSlash (s : String) : Bool :=
  s.data.head? == some '/'

/-- Whether a path ends with the separator (used by `os.path.join`). -/
def endsWithSlash (s : String) : Bool :=
  s.data.getLast? == some '/'

/-- Model of POSIX `os.path.join(a, b)` for two components. -/
def osPathJoin (a b : String) : String :=
  if startsWithSlash b then b
  else if a = "" then b
  else if endsWithSlash a then a ++ b
  else a ++ "/" ++ b

/-! ## Python dictionaries

A dictionary is an association list; `set` replaces the value of an existing
key in place and appends a fresh key at the end, like CPython's insertion
ordered dicts.  Dictionaries live in a `Store` (a heap indexed by `Nat`
references) so that the aliasing performed by `__init__` is observable. -/

abbrev StrMap (α : Type) : Type := List (String × α)

def StrMap.set {α : Type} : StrMap α → String → α → StrMap α
  | [], k, v => [(k, v)]
  | (k', v') :: rest, k, v =>
      if k' = k then (k, v) :: rest else (k', v') :: StrMap.set rest k v

def StrMap.get {α : Type} : StrMap α → String → Option α
  | [], _ => none
  | (k', v') :: rest, k => if k' = k then some v' else StrMap.get rest k

/-- Model of Python `dict.update` with a literal dict argument. -/
def StrMap.update {α : Type} (m : StrMap α) (kvs : List (String × α)) : StrMap α :=
  kvs.foldl (fun acc kv => acc.set kv.1 kv.2) m

abbrev Dict : Type := StrMap String

abbrev Store : Type := List Dict

/-! ## `markups.common` values

`markups/common.py` is not part of the sources under verification; the
constants below are modelled from the spec. -/

/-- Modelled from the spec: `markups.common.MATHJAX_WEB_URL`, the public
CDN-style MathJax URL used when rendering targets a web environment. -/
def MATHJAX_WEB_URL : String :=
  "https://cdnjs.cloudflare.com/ajax/libs/mathjax/2.7.2/MathJax.js"

/-- Modelled from the spec: `markups.common.MATHJAX_LOCAL_URL`, the
local/offline MathJax URL. -/
def MATHJAX_LOCAL_URL : String :=
  "file:///usr/share/javascript/mathjax/MathJax.js"

/-- Modelled from the spec: `markups.common.get_mathjax_url(webenv)` selects
the math-rendering base URL from the web-environment flag. -/
def get_mathjax_url (webenv : Bool) : String :=
  if webenv then MATHJAX_WEB_URL else MATHJAX_LOCAL_URL

/-- The host portion of a URL: the characters between `"://"` and the next
`/` (empty when there is no scheme separator or no host). -/
def hostOf (url : String) : List Char :=
  let i := strFind url.data "://".data
  if i < 0 then []
  else ((url.data.drop (i.toNat + 3)).takeWhile (fun c => c ≠ '/'))

/-- The value `'MathJax %s?config=TeX-AMS_CHTML' % common.MATHJAX_WEB_URL`
forced into `overrides['math_output']` by `__init__`. -/
def math_output_value : String :=
  "MathJax " ++ MATHJAX_WEB_URL ++ "?config=TeX-AMS_CHTML"

/-! ## Data model of the adapter and of the renderer-global state -/

/-- The directive handler classes supplied by `sphinx.ext.graphviz`. -/
inductive DirectiveHandler : Type where
  | Graphviz : DirectiveHandler
  | GraphvizSimple : DirectiveHandler
deriving DecidableEq, Repr

/-- The minimal environment object attached to `Values.env`; `dirOpt` models
`self._dir = abspath(dirname(filename)) if filename else None`. -/
structure SphinxEnvironment : Type where
  dirOpt : Option String
deriving DecidableEq, Repr

/-- `SphinxEnvironment.relfn2path`: resolve a referenced filename against the
source file's directory, or pass it through. -/
def SphinxEnvironment.relfn2path (self : SphinxEnvironment) (filename : String) :
    Option String × String :=
  match self.dirOpt with
  | some d =>
      if d ≠ "" ∧ startsWithSlash filename = false then (none, osPathJoin d filename)
      else (none, filename)
  | none => (none, filename)

/-- `SphinxEnvironment.note_dependency`: the no-op dependency-tracking hook. -/
def SphinxEnvironment.note_dependency (_self : SphinxEnvironment) (_filename : String) :
    Unit := ()

/-- The translator class held by the publisher's writer: either the docutils
HTML translator or the dynamically created Sphinx subclass of the current
translator class. -/
inductive TranslatorClass : Type where
  | htmlTranslator : TranslatorClass
  | sphinxTranslator (parent : TranslatorClass) : TranslatorClass
deriving DecidableEq, Repr

/-- The renderer-global state touched by `_register_sphinx_directives`: the
process-wide directive registry, the writer's translator class, and the
`Values.env` attribute. -/
structure PublisherState : Type where
  directives : StrMap DirectiveHandler
  translator_class : TranslatorClass
  valuesEnv : Option SphinxEnvironment
deriving DecidableEq, Repr

/-- The adapter: its associated filename and a reference into the `Store`
holding its `overrides` dictionary. -/
structure ReStructuredTextMarkup : Type where
  filename : Option String
  overridesRef : Nat
deriving DecidableEq, Repr

/-- The result bundle `self._publisher.writer.parts` exposed by the external
renderer. -/
structure Parts : Type where
  head : String
  html_body : String
  title : String
  stylesheet : String
deriving DecidableEq, Repr

/-- The external renderer, assumed deterministic: from the renderer-global
state, the source text and the source path it produces the parts bundle. -/
abbrev Renderer : Type := PublisherState → String → Option String → Parts

/-- The `ConvertedReStructuredText` result of `convert`. -/
structure ConvertedReStructuredText : Type where
  head : String
  body : String
  title : String
  stylesheet : String
deriving DecidableEq, Repr

/-! ## `available` -/

/-- `distutils.version.LooseVersion` comparison restricted to purely numeric
dotted versions: Python list comparison on the parsed components. -/
def looseVersionLt : List Nat → List Nat → Bool
  | [], [] => false
  | [], _ :: _ => true
  | _ :: _, [] => false
  | a :: as, b :: bs => decide (a < b) || (decide (a = b) && looseVersionLt as bs)

/-- `ReStructuredTextMarkup.available`.  The importability of docutils and
its reported (numeric dotted) version are the environment parameter; the
`try/except ImportError` makes the probe total. -/
def ReStructuredTextMarkup.available (docutilsVersion : Option (List Nat)) : Bool :=
  match docutilsVersion with
  | none => false
  | some v => !(looseVersionLt v [0, 13])

/-! ## Construction and diagram wiring -/

/-- `ReStructuredTextMarkup._register_sphinx_directives`.  Whether
`sphinx.ext.graphviz` is importable is the `sphinxAvailable` parameter;
`sourceDir` is the value `abspath(dirname(filename))` computed by the OS
layer (`none` when the adapter has no filename). -/
def ReStructuredTextMarkup.register_sphinx_directives (sphinxAvailable : Bool)
    (sourceDir : Option String) (pub : PublisherState) : PublisherState :=
  if sphinxAvailable then
    { directives :=
        ((pub.directives.set "graphviz" .Graphviz).set "graph" .GraphvizSimple).set
          "digraph" .GraphvizSimple,
      translator_class := .sphinxTranslator pub.translator_class,
      valuesEnv := some ⟨sourceDir⟩ }
  else pub

/-- The literal dictionary `__init__` passes to `self.overrides.update`. -/
def fixedOverrides : List (String × String) :=
  [("math_output", math_output_value), ("syntax_highlight", "short")]

/-- `ReStructuredTextMarkup.__init__`.  `settings_overrides` is an optional
reference to the caller's dictionary in the store; `settings_overrides or {}`
allocates a fresh dictionary when the argument is `None` or an empty (falsy)
dictionary, and aliases the caller's dictionary otherwise. -/
def ReStructuredTextMarkup.init (store : Store) (pub : PublisherState)
    (sphinxAvailable : Bool) (sourceDir : Option String)
    (filename : Option String) (settings_overrides : Option Nat) :
    ReStructuredTextMarkup × Store × PublisherState :=
  let pub' := ReStructuredTextMarkup.register_sphinx_directives sphinxAvailable sourceDir pub
  match settings_overrides with
  | some r =>
      let d := store.getD r []
      if d.isEmpty then
        (⟨filename, store.length⟩, store ++ [StrMap.update [] fixedOverrides], pub')
      else
        (⟨filename, r⟩, store.set r (StrMap.update d fixedOverrides), pub')
  | none => (⟨filename, store.length⟩, store ++ [StrMap.update [] fixedOverrides], pub')

/-! ## Conversion -/

/-- The literal `stylestart = '<style type="text/css">'` as characters. -/
def styleStartChars : List Char := "<style type=\"text/css\">".data

/-- The literal `'</style>'` as characters. -/
def styleEndChars : List Char := "</style>".data

/-- Lines 129-136 of `convert`: cut the `<style>` and `</style>` tags off the
raw stylesheet fragment.  Note the offset `find(stylestart) + 25` and the use
of `rfind`, both taken verbatim from the source. -/
def cutStyleBlock (origstyle : List Char) : List Char :=
  if 0 ≤ strFind origstyle styleStartChars then
    pySlice origstyle (strFind origstyle styleStartChars + 25)
      (strRfind origstyle styleEndChars)
  else []

/-- `ReStructuredTextMarkup.convert`.  The external renderer is passed as a
function; `pygmentsStylesheet` is the value returned by
`common.get_pygments_stylesheet('.code')`.  The adapter, the store and the
renderer-global state are returned unchanged: the source assigns to none of
them. -/
def ReStructuredTextMarkup.convert (self : ReStructuredTextMarkup) (store : Store)
    (pub : PublisherState) (renderer : Renderer) (pygmentsStylesheet : String)
    (text : String) :
    ConvertedReStructuredText × ReStructuredTextMarkup × Store × PublisherState :=
  let parts := renderer pub text self.filename
  let head := parts.head
  let body := parts.html_body
  let title := parts.title
  let origstyle := parts.stylesheet
  let stylesheet : String := ⟨cutStyleBlock origstyle.data ++ pygmentsStylesheet.data⟩
  (⟨head, body, title, stylesheet⟩, self, store, pub)

/-- A sequence of `convert` calls, threading the adapter and the mutable
state from call to call. -/
def convertMany (a : ReStructuredTextMarkup) (store : Store) (pub : PublisherState)
    (renderer : Renderer) (pygmentsStylesheet : String) :
    List String → ReStructuredTextMarkup × Store × PublisherState
  | [] => (a, store, pub)
  | t :: ts =>
      let r := a.convert store pub renderer pygmentsStylesheet t
      convertMany r.2.1 r.2.2.1 r.2.2.2 renderer pygmentsStylesheet ts

/-- The raw stylesheet fragment the renderer returns inside a given
`convert` call. -/
def origStylesheet (self : ReStructuredTextMarkup) (pub : PublisherState)
    (renderer : Renderer) (text : String) : String :=
  (renderer pub text self.filename).stylesheet

/-! ## `get_javascript` -/

/-- The marker substring checked by `get_javascript`. -/
def mathjaxMarker : List Char := "MathJax.js?config=TeX-AMS_CHTML".data

/-- `ConvertedReStructuredText.get_javascript`: a pure function of the
document head and the web-environment flag. -/
def ConvertedReStructuredText.get_javascript (self : ConvertedReStructuredText)
    (webenv : Bool) : String :=
  if strFind self.head.data mathjaxMarker < 0 then ""
  else
    "<script type=\"text/javascript\" src=\"" ++ get_mathjax_url webenv ++
      "?config=TeX-AMS_CHTML\"></script>\n"

/-! ## Spec-side definitions and concrete fixtures -/

/-- The spec's "standard dotted-version ordering semantics — numeric
component-wise comparison" for `a ≥ b`: either every component agrees
(missing components read as `0`), or at the first differing component `a` is
larger. -/
def specVersionGe (a b : List Nat) : Prop :=
  (∀ i, a.getD i 0 = b.getD i 0) ∨
  (∃ i, b.getD i 0 < a.getD i 0 ∧ ∀ j, j < i → a.getD j 0 = b.getD j 0)

/-- A renderer-global state with an empty directive registry. -/
def pub0 : PublisherState := ⟨[], .htmlTranslator, none⟩

/-- An adapter with no filename whose overrides dictionary is cell `0`. -/
def adapter0 : ReStructuredTextMarkup := ⟨none, 0⟩

/-- A deterministic renderer producing a fixed stylesheet fragment. -/
def rendererWithStylesheet (css : String) : Renderer :=
  fun _ _ _ => ⟨"", "", "", css⟩

/-- A deterministic renderer producing empty parts. -/
def rend0 : Renderer := fun _ _ _ => ⟨"", "", "", ""⟩

/-! ## Helper lemmas -/

theorem StrMap.get_set_self {α : Type} (m : StrMap α) (k : String) (v : α) :
    (m.set k v).get k = some v := by
  induction m with
  | nil => simp [StrMap.set, StrMap.get]
  | cons hd tl ih =>
      obtain ⟨k', v'⟩ := hd
      by_cases h : k' = k
      · subst h; simp [StrMap.set, StrMap.get]
      · simp [StrMap.set, StrMap.get, h, ih]

theorem StrMap.get_set_of_ne {α : Type} (m : StrMap α) {k k' : String} (v : α)
    (h : k ≠ k') : (m.set k v).get k' = m.get k' := by
  induction m with
  | nil => simp [StrMap.set, StrMap.get, h]
  | cons hd tl ih =>
      obtain ⟨k0, v0⟩ := hd
      by_cases h0 : k0 = k
      · subst h0; simp [StrMap.set, StrMap.get, h]
      · simp [StrMap.set, StrMap.get, h0, ih]

theorem getD_append_singleton {α : Type} (l : List α) (x d : α) :
    (l ++ [x]).getD l.length d = x := by
  induction l with
  | nil => rfl
  | cons a t ih => simp [ih]

theorem getD_set_self {α : Type} (l : List α) (r : Nat) (x d : α) (h : r < l.length) :
    (l.set r x).getD r d = x := by
  induction l generalizing r with
  | nil => simp at h
  | cons a t ih =>
      cases r with
      | zero => rfl
      | succ n => simpa using ih n (by simpa using h)

theorem lt_length_of_getD_not_isEmpty (store : Store) (r : Nat)
    (h : (store.getD r []).isEmpty = false) : r < store.length := by
  by_contra hle
  push_neg at hle
  rw [List.getD_eq_default _ _ hle] at h
  simp at h

theorem drop_min_of_le {α : Type} (xs : List α) (a L : Nat) (h : xs.length ≤ L) :
    xs.drop (min a L) = xs.drop a := by
  rcases Nat.le_total a L with hal | hla
  · rw [Nat.min_eq_left hal]
  · rw [Nat.min_eq_right hla]
    rw [List.drop_eq_nil_of_le h, List.drop_eq_nil_of_le (le_trans h hla)]

theorem strFind_occ {s pat : List Char} {i : Nat} (h : strFind s pat = (i : Int)) :
    pat.isPrefixOf (s.drop i) = true := by
  unfold strFind at h
  split at h
  next j hj =>
      have hji : j = i := by exact_mod_cast h
      subst hji
      simpa [subOccursAt] using List.find?_some hj
  next => exfalso; omega

theorem strRfind_occ {s pat : List Char} {j : Nat} (h : strRfind s pat = (j : Int)) :
    pat.isPrefixOf (s.drop j) = true := by
  unfold strRfind at h
  split at h
  next k hk =>
      have hkj : k = j := by exact_mod_cast h
      subst hkj
      simpa [subOccursAt] using List.find?_some hk
  next => exfalso; omega

theorem occ_bounds {s pat : List Char} {i : Nat} (hp : 0 < pat.length)
    (h : pat.isPrefixOf (s.drop i) = true) : i < s.length ∧ i + pat.length ≤ s.length := by
  have hpre : pat <+: s.drop i := List.isPrefixOf_iff_prefix.mp h
  have hlen : pat.length ≤ (s.drop i).length := hpre.sublist.length_le
  rw [List.length_drop] at hlen
  omega

theorem pyIndexNorm_natCast (len n : Nat) : pyIndexNorm len (n : Int) = min n len := by
  rw [pyIndexNorm, if_neg (by omega : ¬((n : Int) < 0)), Int.toNat_natCast]

theorem pyIndexNorm_negOne (len : Nat) (h : 1 ≤ len) : pyIndexNorm len (-1) = len - 1 := by
  rw [pyIndexNorm, if_pos (by omega : (-1 : Int) < 0),
    if_neg (by omega : ¬((-1 : Int) + (len : Int) < 0))]
  have ht : ((-1 : Int) + (len : Int)).toNat = len - 1 := by omega
  rw [ht, Nat.min_eq_left (by omega)]

theorem cutStyleBlock_found {org : List Char} {i j : Nat}
    (hfind : strFind org styleStartChars = (i : Int))
    (hrfind : strRfind org styleEndChars = (j : Int)) :
    cutStyleBlock org = (org.take j).drop (i + 25) := by
  have hjb := occ_bounds (by decide) (strRfind_occ hrfind)
  unfold cutStyleBlock
  rw [hfind, hrfind, if_pos (by omega : (0 : Int) ≤ (i : Int))]
  unfold pySlice
  have h1 : (i : Int) + 25 = ((i + 25 : Nat) : Int) := by push_cast; ring
  rw [h1, pyIndexNorm_natCast, pyIndexNorm_natCast,
    Nat.min_eq_left (by omega : j ≤ org.length)]
  exact drop_min_of_le _ _ _ (by simp [List.length_take])

theorem cutStyleBlock_noEnd {org : List Char} {i : Nat}
    (hfind : strFind org styleStartChars = (i : Int))
    (hrfind : strRfind org styleEndChars = -1) :
    cutStyleBlock org = (org.take (org.length - 1)).drop (i + 25) := by
  have hib := occ_bounds (by decide) (strFind_occ hfind)
  unfold cutStyleBlock
  rw [hfind, hrfind, if_pos (by omega : (0 : Int) ≤ (i : Int))]
  unfold pySlice
  have h1 : (i : Int) + 25 = ((i + 25 : Nat) : Int) := by push_cast; ring
  rw [h1, pyIndexNorm_natCast, pyIndexNorm_negOne _ (by omega)]
  exact drop_min_of_le _ _ _ (by simp [List.length_take])

theorem cutStyleBlock_absent {org : List Char}
    (hfind : strFind org styleStartChars = -1) :
    cutStyleBlock org = [] := by
  unfold cutStyleBlock
  rw [hfind]
  simp

theorem convertMany_id (a : ReStructuredTextMarkup) (store : Store) (pub : PublisherState)
    (renderer : Renderer) (pyg : String) (texts : List String) :
    convertMany a store pub renderer pyg texts = (a, store, pub) := by
  induction texts with
  | nil => rfl
  | cons t ts ih => exact ih

theorem looseVersionLt_nil_right (l : List Nat) : looseVersionLt l [] = false := by
  cases l <;> rfl

theorem startsWithSlash_append (a b : String) (h : startsWithSlash a = true) :
    startsWithSlash (a ++ b) = true := by
  unfold startsWithSlash at h ⊢
  rw [String.data_append]
  cases hd : a.data with
  | nil => rw [hd] at h; simp at h
  | cons c t =>
      rw [hd] at h
      simp only [List.head?_cons, beq_iff_eq, Option.some.injEq] at h
      simp [h]

theorem init_pub (store : Store) (pub : PublisherState) (sav : Bool)
    (sd fn : Option String) (so : Option Nat) :
    (ReStructuredTextMarkup.init store pub sav sd fn so).2.2 =
      ReStructuredTextMarkup.register_sphinx_directives sav sd pub := by
  cases so with
  | none => rfl
  | some r =>
      simp only [ReStructuredTextMarkup.init]
      split <;> rfl

theorem init_none (store : Store) (pub : PublisherState) (sav : Bool)
    (sd fn : Option String) :
    ReStructuredTextMarkup.init store pub sav sd fn none =
      (⟨fn, store.length⟩, store ++ [StrMap.update [] fixedOverrides],
        ReStructuredTextMarkup.register_sphinx_directives sav sd pub) := rfl

theorem init_some_empty {store : Store} {r : Nat} (pub : PublisherState) (sav : Bool)
    (sd fn : Option String) (h : (store.getD r []).isEmpty = true) :
    ReStructuredTextMarkup.init store pub sav sd fn (some r) =
      (⟨fn, store.length⟩, store ++ [StrMap.update [] fixedOverrides],
        ReStructuredTextMarkup.register_sphinx_directives sav sd pub) := by
  have h' : store.getD r [] = [] := by
    cases hd : store.getD r [] with
    | nil => rfl
    | cons x t => rw [hd] at h; simp at h
  have h2 : store[r]?.getD [] = ([] : Dict) := by
    rw [← List.getD_eq_getElem?_getD]; exact h'
  simp [ReStructuredTextMarkup.init, h2]

theorem init_some_nonempty {store : Store} {r : Nat} (pub : PublisherState) (sav : Bool)
    (sd fn : Option String) (h : (store.getD r []).isEmpty = false) :
    ReStructuredTextMarkup.init store pub sav sd fn (some r) =
      (⟨fn, r⟩, store.set r (StrMap.update (store.getD r []) fixedOverrides),
        ReStructuredTextMarkup.register_sphinx_directives sav sd pub) := by
  have h' : store.getD r [] ≠ [] := by
    intro hnil; rw [hnil] at h; simp at h
  have h2 : store[r]?.getD [] ≠ ([] : Dict) := by
    rw [← List.getD_eq_getElem?_getD]; exact h'
  simp [ReStructuredTextMarkup.init, h2]

theorem update_fixed_get (d : Dict) :
    StrMap.get (StrMap.update d fixedOverrides) "math_output" = some math_output_value ∧
    StrMap.get (StrMap.update d fixedOverrides) "syntax_highlight" = some "short" := by
  constructor
  · show StrMap.get ((d.set "math_output" math_output_value).set "syntax_highlight" "short")
        "math_output" = _
    rw [StrMap.get_set_of_ne _ _ (by decide : "syntax_highlight" ≠ "math_output")]
    exact StrMap.get_set_self _ _ _
  · exact StrMap.get_set_self _ _ _

theorem init_overrides_forced (store : Store) (pub : PublisherState) (sav : Bool)
    (sd fn : Option String) (so : Option Nat) :
    StrMap.get (((ReStructuredTextMarkup.init store pub sav sd fn so).2.1).getD
        (ReStructuredTextMarkup.init store pub sav sd fn so).1.overridesRef [])
      "math_output" = some math_output_value ∧
    StrMap.get (((ReStructuredTextMarkup.init store pub sav sd fn so).2.1).getD
        (ReStructuredTextMarkup.init store pub sav sd fn so).1.overridesRef [])
      "syntax_highlight" = some "short" := by
  cases so with
  | none =>
      rw [init_none]
      show StrMap.get ((store ++ [StrMap.update [] fixedOverrides]).getD store.length [])
          "math_output" = _ ∧
        StrMap.get ((store ++ [StrMap.update [] fixedOverrides]).getD store.length [])
          "syntax_highlight" = _
      rw [getD_append_singleton]
      exact update_fixed_get []
  | some r =>
      cases h : (store.getD r []).isEmpty with
      | true =>
          rw [init_some_empty pub sav sd fn h]
          show StrMap.get ((store ++ [StrMap.update [] fixedOverrides]).getD store.length [])
              "math_output" = _ ∧
            StrMap.get ((store ++ [StrMap.update [] fixedOverrides]).getD store.length [])
              "syntax_highlight" = _
          rw [getD_append_singleton]
          exact update_fixed_get []
      | false =>
          have hr := lt_length_of_getD_not_isEmpty store r h
          rw [init_some_nonempty pub sav sd fn h]
          show StrMap.get (((store.set r (StrMap.update (store.getD r []) fixedOverrides)).getD
              r [])) "math_output" = _ ∧
            StrMap.get (((store.set r (StrMap.update (store.getD r []) fixedOverrides)).getD
              r [])) "syntax_highlight" = _
          rw [getD_set_self _ _ _ _ hr]
          exact update_fixed_get _

/-! ## Claims -/

/-- C1 counterexample: on the raw stylesheet fragment
`<style type="text/css">ABCD</style>` the claim predicts the stylesheet field
`"ABCD" ++ "PYG"`, but `convert` slices from offset `find(stylestart) + 25`
(25 characters past the start of the 23-character opening tag) and produces
`"CDPYG"`. -/
theorem C1_stylesheet_extraction_cex :
    (adapter0.convert [] pub0
        (rendererWithStylesheet "<style type=\"text/css\">ABCD</style>") "PYG"
        "text").1.stylesheet = "CDPYG" ∧
    (adapter0.convert [] pub0
        (rendererWithStylesheet "<style type=\"text/css\">ABCD</style>") "PYG"
        "text").1.stylesheet ≠ "ABCD" ++ "PYG" := by
  constructor
  · decide
  · decide

/-- C1 (amended): during `convert`, if the raw stylesheet fragment contains
the opening tag literal `<style type="text/css">` (first occurrence at index
`i`), the stylesheet field of the returned document equals the fragment's
text from `i + 25` (the 23-character opening tag plus the two characters that
follow it) up to, not including, the last occurrence of `</style>`, with the
syntax-highlight stylesheet appended; if the opening tag literal is absent,
the stylesheet field equals just the appended syntax-highlight stylesheet. -/
theorem C1_stylesheet_extraction (a : ReStructuredTextMarkup) (store : Store)
    (pub : PublisherState) (renderer : Renderer) (pyg text : String) (i j : Nat) :
    (strFind (origStylesheet a pub renderer text).data styleStartChars = (i : Int) →
      strRfind (origStylesheet a pub renderer text).data styleEndChars = (j : Int) →
      (a.convert store pub renderer pyg text).1.stylesheet =
        String.mk ((((origStylesheet a pub renderer text).data.take j).drop (i + 25)) ++
          pyg.data)) ∧
    (strFind (origStylesheet a pub renderer text).data styleStartChars = -1 →
      (a.convert store pub renderer pyg text).1.stylesheet = pyg) := by
  constructor
  · intro hf hr
    show String.mk (cutStyleBlock (origStylesheet a pub renderer text).data ++ pyg.data) = _
    rw [cutStyleBlock_found hf hr]
  · intro hf
    show String.mk (cutStyleBlock (origStylesheet a pub renderer text).data ++ pyg.data) = _
    rw [cutStyleBlock_absent hf]
    rfl

/-- C1 witness: the amended statement applied to the concrete fragment
`<style type="text/css">WXYZ</style>` with opening tag at index 0 and closing
tag at index 27. -/
theorem C1_stylesheet_extraction_witness :
    (adapter0.convert [] pub0
        (rendererWithStylesheet "<style type=\"text/css\">WXYZ</style>") "PYG"
        "t").1.stylesheet =
      String.mk ((("<style type=\"text/css\">WXYZ</style>".data.take 27).drop (0 + 25)) ++
        "PYG".data) :=
  (C1_stylesheet_extraction adapter0 [] pub0
      (rendererWithStylesheet "<style type=\"text/css\">WXYZ</style>") "PYG" "t" 0 27).1
    (by decide) (by decide)

/-- C10: during `convert`, if the raw stylesheet fragment contains the
opening tag literal (first occurrence at index `i`) but no `</style>`
(`rfind` returns `-1`, which Python slicing reads as the index of the last
character), `convert` is total and the stylesheet field is the fragment's
text from offset `i + 25` up to but excluding the fragment's final character,
with the syntax-highlight stylesheet appended. -/
theorem C10_no_closing_tag (a : ReStructuredTextMarkup) (store : Store)
    (pub : PublisherState) (renderer : Renderer) (pyg text : String) (i : Nat)
    (hfind : strFind (origStylesheet a pub renderer text).data styleStartChars = (i : Int))
    (hrfind : strRfind (origStylesheet a pub renderer text).data styleEndChars = -1) :
    (a.convert store pub renderer pyg text).1.stylesheet =
      String.mk ((((origStylesheet a pub renderer text).data.take
        ((origStylesheet a pub renderer text).data.length - 1)).drop (i + 25)) ++
        pyg.data) := by
  show String.mk (cutStyleBlock (origStylesheet a pub renderer text).data ++ pyg.data) = _
  rw [cutStyleBlock_noEnd hfind hrfind]

/-- C10 witness: the concrete fragment `<style type="text/css">ABCD` has the
opening tag at index 0 and no closing tag; the stylesheet field keeps the
characters strictly between offset 25 and the final character, i.e. `"C"`,
then appends the syntax-highlight stylesheet. -/
theorem C10_no_closing_tag_witness :
    (adapter0.convert [] pub0 (rendererWithStylesheet "<style type=\"text/css\">ABCD")
        "PYG" "t").1.stylesheet =
      String.mk ((("<style type=\"text/css\">ABCD".data.take 26).drop (0 + 25)) ++
        "PYG".data) :=
  C10_no_closing_tag adapter0 [] pub0
    (rendererWithStylesheet "<style type=\"text/css\">ABCD") "PYG" "t" 0
    (by decide) (by decide)

/-- C2: whatever overrides mapping the caller supplies (aliased, empty or
absent), after construction the adapter's overrides dictionary maps
`math_output` to the fixed MathJax value and `syntax_highlight` to `short`,
and every subsequent sequence of `convert` calls preserves this. -/
theorem C2_forced_overrides (store : Store) (pub : PublisherState) (sav : Bool)
    (sd fn : Option String) (so : Option Nat) (renderer : Renderer) (pyg : String)
    (texts : List String) (a : ReStructuredTextMarkup) (s1 : Store) (p1 : PublisherState)
    (hinit : ReStructuredTextMarkup.init store pub sav sd fn so = (a, s1, p1)) :
    StrMap.get (((convertMany a s1 p1 renderer pyg texts).2.1).getD
        (convertMany a s1 p1 renderer pyg texts).1.overridesRef [])
      "math_output" = some math_output_value ∧
    StrMap.get (((convertMany a s1 p1 renderer pyg texts).2.1).getD
        (convertMany a s1 p1 renderer pyg texts).1.overridesRef [])
      "syntax_highlight" = some "short" := by
  rw [convertMany_id]
  have h := init_overrides_forced store pub sav sd fn so
  rw [hinit] at h
  exact h

/-- C2 witness: a caller mapping that sets conflicting values for both fixed
keys is overwritten at construction, and the keys survive two `convert`
calls. -/
theorem C2_forced_overrides_witness :
    StrMap.get (((convertMany ⟨none, 0⟩
          [StrMap.update [("math_output", "x"), ("syntax_highlight", "y")] fixedOverrides]
          pub0 rend0 "PYG" ["a", "b"]).2.1).getD
        (convertMany ⟨none, 0⟩
          [StrMap.update [("math_output", "x"), ("syntax_highlight", "y")] fixedOverrides]
          pub0 rend0 "PYG" ["a", "b"]).1.overridesRef [])
      "math_output" = some math_output_value ∧
    StrMap.get (((convertMany ⟨none, 0⟩
          [StrMap.update [("math_output", "x"), ("syntax_highlight", "y")] fixedOverrides]
          pub0 rend0 "PYG" ["a", "b"]).2.1).getD
        (convertMany ⟨none, 0⟩
          [StrMap.update [("math_output", "x"), ("syntax_highlight", "y")] fixedOverrides]
          pub0 rend0 "PYG" ["a", "b"]).1.overridesRef [])
      "syntax_highlight" = some "short" :=
  C2_forced_overrides [[("math_output", "x"), ("syntax_highlight", "y")]] pub0 false
    none none (some 0) rend0 "PYG" ["a", "b"] ⟨none, 0⟩ _ pub0 rfl

/-- C5: when `sphinx.ext.graphviz` cannot be imported, the registration
helper and hence construction leave the renderer-global state untouched: no
directive is registered, the translator class is unchanged, `Values.env` is
unchanged, and construction still succeeds (the function is total). -/
theorem C5_sphinx_unavailable (sd : Option String) (pub : PublisherState) (store : Store)
    (fn : Option String) (so : Option Nat) :
    ReStructuredTextMarkup.register_sphinx_directives false sd pub = pub ∧
    (ReStructuredTextMarkup.register_sphinx_directives false sd pub).directives =
      pub.directives ∧
    (ReStructuredTextMarkup.register_sphinx_directives false sd pub).translator_class =
      pub.translator_class ∧
    (ReStructuredTextMarkup.init store pub false sd fn so).2.2 = pub :=
  ⟨rfl, rfl, rfl, init_pub store pub false sd fn so⟩

/-- C7: two `convert` calls with the same text on the same adapter, the
second starting from the state the first returned, produce documents with
identical head, body, title and stylesheet fields (the external renderer is a
function, which is the determinism assumption). -/
theorem C7_repeat_convert (a : ReStructuredTextMarkup) (store : Store)
    (pub : PublisherState) (renderer : Renderer) (pyg text : String) :
    (let c1 := a.convert store pub renderer pyg text
     let c2 := (c1.2.1).convert c1.2.2.1 c1.2.2.2 renderer pyg text
     c1.1.head = c2.1.head ∧ c1.1.body = c2.1.body ∧ c1.1.title = c2.1.title ∧
       c1.1.stylesheet = c2.1.stylesheet) :=
  ⟨rfl, rfl, rfl, rfl⟩

/-- C8: `convert` returns the adapter (filename, overrides reference), the
store holding the overrides mapping, and the renderer-global state unchanged,
and therefore any sequence of `convert` calls leaves them all unchanged. -/
theorem C8_convert_frame (a : ReStructuredTextMarkup) (store : Store)
    (pub : PublisherState) (renderer : Renderer) (pyg text : String)
    (texts : List String) :
    (a.convert store pub renderer pyg text).2 = (a, store, pub) ∧
    convertMany a store pub renderer pyg texts = (a, store, pub) :=
  ⟨rfl, convertMany_id a store pub renderer pyg texts⟩

/-- C9: a non-empty caller-supplied overrides mapping is aliased, not copied:
the adapter's overrides reference is the caller's reference `r`, and
construction writes the two fixed keys directly into the dictionary stored in
cell `r`, mutating the caller's own mapping. -/
theorem C9_overrides_aliasing (store : Store) (pub : PublisherState) (sav : Bool)
    (sd fn : Option String) (r : Nat) (h : (store.getD r []).isEmpty = false) :
    (ReStructuredTextMarkup.init store pub sav sd fn (some r)).1.overridesRef = r ∧
    (ReStructuredTextMarkup.init store pub sav sd fn (some r)).2.1 =
      store.set r (StrMap.update (store.getD r []) fixedOverrides) ∧
    StrMap.get (((ReStructuredTextMarkup.init store pub sav sd fn (some r)).2.1).getD r [])
      "math_output" = some math_output_value ∧
    StrMap.get (((ReStructuredTextMarkup.init store pub sav sd fn (some r)).2.1).getD r [])
      "syntax_highlight" = some "short" := by
  have hr := lt_length_of_getD_not_isEmpty store r h
  rw [init_some_nonempty pub sav sd fn h]
  refine ⟨rfl, rfl, ?_, ?_⟩
  · show StrMap.get (((store.set r (StrMap.update (store.getD r []) fixedOverrides)).getD
        r [])) "math_output" = _
    rw [getD_set_self _ _ _ _ hr]
    exact (update_fixed_get _).1
  · show StrMap.get (((store.set r (StrMap.update (store.getD r []) fixedOverrides)).getD
        r [])) "syntax_highlight" = _
    rw [getD_set_self _ _ _ _ hr]
    exact (update_fixed_get _).2

/-- C9 witness: a concrete caller mapping `[("a", "b")]` in cell `0` is
aliased and receives the two fixed keys. -/
theorem C9_overrides_aliasing_witness :
    (ReStructuredTextMarkup.init [[("a", "b")]] pub0 false none none (some 0)).1.overridesRef
      = 0 ∧
    (ReStructuredTextMarkup.init [[("a", "b")]] pub0 false none none (some 0)).2.1 =
      List.set [[("a", "b")]] 0 (StrMap.update (List.getD [[("a", "b")]] 0 []) fixedOverrides) ∧
    StrMap.get (((ReStructuredTextMarkup.init [[("a", "b")]] pub0 false none none
        (some 0)).2.1).getD 0 []) "math_output" = some math_output_value ∧
    StrMap.get (((ReStructuredTextMarkup.init [[("a", "b")]] pub0 false none none
        (some 0)).2.1).getD 0 []) "syntax_highlight" = some "short" :=
  C9_overrides_aliasing [[("a", "b")]] pub0 false none none 0 (by decide)

/-- C3: `get_javascript` is a pure function of the document head and the
web-environment flag; it returns the empty string when the head does not
contain the math-script marker, and otherwise a single non-empty `<script>`
tag whose `src` is the base URL selected by the flag followed by the fixed
query suffix, the hosts of the two base URLs being different. -/
theorem C3_get_javascript (doc : ConvertedReStructuredText) (webenv : Bool) :
    (strFind doc.head.data mathjaxMarker < 0 → doc.get_javascript webenv = "") ∧
    (0 ≤ strFind doc.head.data mathjaxMarker →
      doc.get_javascript webenv =
        "<script type=\"text/javascript\" src=\"" ++ get_mathjax_url webenv ++
          "?config=TeX-AMS_CHTML\"></script>\n" ∧
      doc.get_javascript webenv ≠ "") ∧
    hostOf (get_mathjax_url true) ≠ hostOf (get_mathjax_url false) := by
  refine ⟨?_, ?_, by decide⟩
  · intro h
    simp [ConvertedReStructuredText.get_javascript, h]
  · intro h
    have h' : ¬(strFind doc.head.data mathjaxMarker < 0) := by omega
    refine ⟨by simp [ConvertedReStructuredText.get_javascript, h'], ?_⟩
    simp only [ConvertedReStructuredText.get_javascript, if_neg h']
    cases webenv <;> decide

/-- C3 witness: the marker-free head yields the empty string, and a head
containing the marker yields a non-empty script tag. -/
theorem C3_get_javascript_witness :
    ConvertedReStructuredText.get_javascript ⟨"no marker here", "", "", ""⟩ true = "" ∧
    ConvertedReStructuredText.get_javascript
      ⟨"x MathJax.js?config=TeX-AMS_CHTML y", "", "", ""⟩ false ≠ "" :=
  ⟨(C3_get_javascript ⟨"no marker here", "", "", ""⟩ true).1 (by decide),
   ((C3_get_javascript ⟨"x MathJax.js?config=TeX-AMS_CHTML y", "", "", ""⟩ false).2.1
      (by decide)).2⟩

/-- C6: with a known (absolute, hence non-empty) source-file directory `d`,
`relfn2path` maps a non-absolute filename `f` to `os.path.join(d, f)`, which
is absolute; it passes an absolute `f` through unchanged; and with no
source-file directory every filename passes through unchanged. -/
theorem C6_relfn2path (d f : String) (hd : startsWithSlash d = true) :
    (startsWithSlash f = false →
      (SphinxEnvironment.mk (some d)).relfn2path f = (none, osPathJoin d f) ∧
      startsWithSlash (osPathJoin d f) = true) ∧
    (startsWithSlash f = true →
      (SphinxEnvironment.mk (some d)).relfn2path f = (none, f)) ∧
    (SphinxEnvironment.mk none).relfn2path f = (none, f) := by
  have hdne : d ≠ "" := by
    intro he
    rw [he] at hd
    simp [startsWithSlash] at hd
  refine ⟨?_, ?_, rfl⟩
  · intro hf
    refine ⟨by simp [SphinxEnvironment.relfn2path, hdne, hf], ?_⟩
    unfold osPathJoin
    rw [if_neg (by simp [hf]), if_neg hdne]
    by_cases he : endsWithSlash d = true
    · rw [if_pos he]
      exact startsWithSlash_append d f hd
    · rw [if_neg he]
      exact startsWithSlash_append _ _ (startsWithSlash_append d "/" hd)
  · intro hf
    simp [SphinxEnvironment.relfn2path, hf]

/-- C6 witness: `relfn2path` joins a relative filename to the absolute
directory `/home` and passes the absolute filename `/abs` through. -/
theorem C6_relfn2path_witness :
    ((SphinxEnvironment.mk (some "/home")).relfn2path "x.png" =
        (none, osPathJoin "/home" "x.png") ∧
      startsWithSlash (osPathJoin "/home" "x.png") = true) ∧
    (SphinxEnvironment.mk (some "/home")).relfn2path "/abs" = (none, "/abs") :=
  ⟨(C6_relfn2path "/home" "x.png" (by decide)).1 (by decide),
   (C6_relfn2path "/home" "/abs" (by decide)).2.1 (by decide)⟩

theorem looseVersionLt_one (a : Nat) : looseVersionLt [a] [0, 13] = decide (a = 0) := by
  show (decide (a < 0) || (decide (a = 0) && looseVersionLt [] [13])) = decide (a = 0)
  rw [show looseVersionLt [] [13] = true from rfl]
  rw [decide_eq_false (Nat.not_lt_zero a)]
  simp

theorem looseVersionLt_two (a b : Nat) (rest : List Nat) :
    looseVersionLt (a :: b :: rest) [0, 13] = (decide (a = 0) && decide (b < 13)) := by
  show (decide (a < 0) || (decide (a = 0) && looseVersionLt (b :: rest) [13])) = _
  rw [decide_eq_false (Nat.not_lt_zero a)]
  show (false || (decide (a = 0) &&
    (decide (b < 13) || (decide (b = 13) && looseVersionLt rest [])))) = _
  rw [looseVersionLt_nil_right]
  simp

/-- C4: `available` never raises (it is a total function), returns `false`
when docutils cannot be imported, and returns `true` exactly when the located
library's numeric dotted version is at least `0.13` under the spec's
standard dotted-version ordering (`specVersionGe`). -/
theorem C4_available :
    ReStructuredTextMarkup.available none = false ∧
    (∀ v : List Nat,
      ReStructuredTextMarkup.available (some v) = true ↔ specVersionGe v [0, 13]) := by
  refine ⟨rfl, ?_⟩
  intro v
  match v with
  | [] =>
      constructor
      · intro h
        exact absurd h (by decide)
      · intro h
        exfalso
        rcases h with h | ⟨i, hlt, hpre⟩
        · exact absurd (h 1) (by decide)
        · rw [List.getD_nil] at hlt
          exact Nat.not_lt_zero _ hlt
  | [a] =>
      have hl : ReStructuredTextMarkup.available (some [a]) = !(decide (a = 0)) := by
        show (!(looseVersionLt [a] [0, 13])) = _
        rw [looseVersionLt_one]
      rw [hl]
      constructor
      · intro h
        have ha : a ≠ 0 := by simpa using h
        exact Or.inr ⟨0, Nat.pos_of_ne_zero ha, fun j hj => absurd hj (Nat.not_lt_zero j)⟩
      · intro h
        rcases h with h | ⟨i, hlt, hpre⟩
        · have h2 : (0 : Nat) = 13 := h 1
          exact absurd h2 (by omega)
        · match i with
          | 0 =>
              have ha : 0 < a := hlt
              simpa using Nat.pos_iff_ne_zero.mp ha
          | 1 =>
              have h13 : (13 : Nat) < 0 := hlt
              exact absurd h13 (by omega)
          | (n + 2) =>
              have h0 : (0 : Nat) < 0 := hlt
              exact absurd h0 (by omega)
  | a :: b :: rest =>
      have hl : ReStructuredTextMarkup.available (some (a :: b :: rest)) =
          !(decide (a = 0) && decide (b < 13)) := by
        show (!(looseVersionLt (a :: b :: rest) [0, 13])) = _
        rw [looseVersionLt_two]
      rw [hl]
      constructor
      · intro h
        by_cases ha : a = 0
        · subst ha
          have hb : 13 ≤ b := by
            simp at h
            omega
          by_cases hb13 : b = 13
          · subst hb13
            by_cases hz : ∀ k, rest.getD k 0 = 0
            · left
              intro i
              match i with
              | 0 => rfl
              | 1 => rfl
              | (n + 2) => simpa using hz n
            · push_neg at hz
              right
              have hfind := Nat.find_spec hz
              refine ⟨Nat.find hz + 2, ?_, ?_⟩
              · simpa using Nat.pos_of_ne_zero hfind
              · intro j hj
                match j with
                | 0 => rfl
                | 1 => rfl
                | (m + 2) =>
                    have hm : m < Nat.find hz := by omega
                    simpa using not_not.mp (Nat.find_min hz hm)
          · right
            have hlt13 : 13 < b := by omega
            refine ⟨1, hlt13, ?_⟩
            intro j hj
            match j with
            | 0 => rfl
            | (m + 1) => exact absurd hj (by omega)
        · right
          exact ⟨0, Nat.pos_of_ne_zero ha, fun j hj => absurd hj (Nat.not_lt_zero j)⟩
      · intro h
        rcases h with h | ⟨i, hlt, hpre⟩
        · have ha : a = 0 := h 0
          have hb : b = 13 := h 1
          subst ha
          subst hb
          decide
        · match i with
          | 0 =>
              have ha : 0 < a := hlt
              simp [Nat.pos_iff_ne_zero.mp ha]
          | 1 =>
              have hb : 13 < b := hlt
              have ha : a = 0 := hpre 0 (by omega)
              subst ha
              simp
              omega
          | (n + 2) =>
              have hb : b = 13 := hpre 1 (by omega)
              subst hb
              simp

/-- C4 witness: docutils reporting version `0.14` is located and accepted,
and `0.14 ≥ 0.13` in the spec's dotted-version order. -/
theorem C4_available_witness :
    ReStructuredTextMarkup.available (some [0, 14]) = true ∧
    specVersionGe [0, 14] [0, 13] :=
  ⟨rfl, (C4_available.2 [0, 14]).mp rfl⟩

end Markups
